/-
Verification of the media-agent storage/classification engine.

Shallow embedding of the Python source:
- `backend/utils/naming.py`            (filename sanitization)
- `backend/agents/classifier.py`       (episode-number extraction, per-file classification)
- `backend/agents/models/tmdb_mapping.py` (episode mapping table)
- `backend/agents/tools/strm_tools.py` (subtitle defaulting, play-URL generation, retry pass)
- `backend/services/alist_service.py`  (LRU directory cache, list retry loop, mutations)

Python dicts are modelled as association lists where insertion appends and
lookup takes the last binding (last write wins).  Machine integers are `Nat`.
Network effects are modelled by explicit oracles (functions from call index /
path to the response the server would give), and the observable actions
(requests, sleeps, logins) are collected in traces.
-/
import Mathlib

namespace MediaAgent

/-! ## `backend/utils/naming.py` : `sanitize_filename` -/

/-- Windows-illegal filename characters, from the regex `[\\/:*?"<>|]`. -/
def isWindowsIllegal (c : Char) : Bool :=
  c = '\\' || c = '/' || c = ':' || c = '*' || c = '?' || c = '"' || c = '<' || c = '>' || c = '|'

/-- `re.sub(r'[\\/:*?"<>|]', '.', name)` -/
def replaceIllegal (l : List Char) : List Char :=
  l.map (fun c => if isWindowsIllegal c then '.' else c)

/-- `cleaned.replace('~', '-')` -/
def replaceTilde (l : List Char) : List Char :=
  l.map (fun c => if c = '~' then '-' else c)

/-- `cleaned.replace("'", "")` -/
def removeApostrophe (l : List Char) : List Char :=
  l.filter (fun c => c ≠ '\'')

/-- `re.sub(r'!+$', '', cleaned)` : drop the trailing run of `!`. -/
def stripTrailingBang (l : List Char) : List Char :=
  (l.reverse.dropWhile (fun c => c = '!')).reverse

/-- `re.sub(r'^!+', '', cleaned)` : drop the leading run of `!`. -/
def stripLeadingBang (l : List Char) : List Char :=
  l.dropWhile (fun c => c = '!')

/-- `re.sub(r'\.{2,}', '.', cleaned)` : collapse each run of two or more dots. -/
def collapseDots : List Char → List Char
  | [] => []
  | [c] => [c]
  | c :: d :: rest =>
    if c = '.' ∧ d = '.' then collapseDots (d :: rest)
    else c :: collapseDots (d :: rest)

/-- `cleaned.strip('. ')` : strip dots and spaces from both ends. -/
def stripDotSpace (l : List Char) : List Char :=
  ((l.dropWhile (fun c => c = '.' || c = ' ')).reverse.dropWhile
    (fun c => c = '.' || c = ' ')).reverse

/-- `sanitize_filename` from `backend/utils/naming.py`, applying the same steps
in the same order. -/
def sanitize_filename (s : String) : String :=
  String.mk (stripDotSpace (collapseDots (stripLeadingBang (stripTrailingBang
    (removeApostrophe (replaceTilde (replaceIllegal s.data)))))))

/-- `true` iff the list contains two adjacent `'.'` characters. -/
def hasDoubleDot : List Char → Bool
  | c :: d :: rest => (c = '.' && d = '.') || hasDoubleDot (d :: rest)
  | _ => false

example : sanitize_filename "a\\b//c::d" = "a.b.c.d" := by decide
example : sanitize_filename "!!Hello~World!!" = "Hello-World" := by decide
example : sanitize_filename "..a...b.." = "a.b" := by decide
example : sanitize_filename " .Movie's Title?. " = "Movies Title" := by decide

theorem collapseDots_cons (l : List Char) (c : Char) :
    ∃ t, collapseDots (c :: l) = c :: t := by
  induction l generalizing c with
  | nil => exact ⟨[], rfl⟩
  | cons d rest ih =>
    by_cases h : c = '.' ∧ d = '.'
    · obtain ⟨t, ht⟩ := ih d
      obtain ⟨hc, hd⟩ := h
      subst hc; subst hd
      exact ⟨t, by simpa [collapseDots] using ht⟩
    · exact ⟨collapseDots (d :: rest), by simp only [collapseDots, if_neg h]⟩

theorem hasDoubleDot_collapseDots (l : List Char) :
    hasDoubleDot (collapseDots l) = false := by
  induction l with
  | nil => rfl
  | cons c l ih =>
    cases l with
    | nil => rfl
    | cons d rest =>
      by_cases h : c = '.' ∧ d = '.'
      · simpa only [collapseDots, if_pos h] using ih
      · obtain ⟨t, ht⟩ := collapseDots_cons rest d
        have hdd : hasDoubleDot (d :: t) = false := ht ▸ ih
        have hb : (decide (c = '.') && decide (d = '.')) = false := by
          by_cases hc : c = '.'
          · by_cases hd : d = '.'
            · exact absurd ⟨hc, hd⟩ h
            · simp [hd]
          · simp [hc]
        simp only [collapseDots, if_neg h, ht, hasDoubleDot, hb, hdd, Bool.or_self]

theorem hasDoubleDot_iff (l : List Char) :
    hasDoubleDot l = true ↔ ∃ s t, l = s ++ '.' :: '.' :: t := by
  induction l with
  | nil =>
    constructor
    · intro h; simp [hasDoubleDot] at h
    · rintro ⟨s, t, hst⟩; simp at hst
  | cons c l ih =>
    cases l with
    | nil =>
      constructor
      · intro h; simp [hasDoubleDot] at h
      · rintro ⟨s, t, hst⟩
        rcases s with _ | ⟨a, s⟩ <;> simp at hst
    | cons d rest =>
      constructor
      · intro h
        simp only [hasDoubleDot, Bool.or_eq_true, Bool.and_eq_true, decide_eq_true_eq] at h
        rcases h with ⟨hc, hd⟩ | h
        · exact ⟨[], rest, by simp [hc, hd]⟩
        · obtain ⟨s, t, hst⟩ := ih.mp h
          exact ⟨c :: s, t, by simp [hst]⟩
      · rintro ⟨s, t, hst⟩
        rcases s with _ | ⟨a, s⟩
        · simp only [List.nil_append, List.cons.injEq] at hst
          obtain ⟨hc, hd, -⟩ := hst
          simp [hasDoubleDot, hc, hd]
        · simp only [List.cons_append, List.cons.injEq] at hst
          obtain ⟨-, htl⟩ := hst
          have : hasDoubleDot (d :: rest) = true := ih.mpr ⟨s, t, htl⟩
          simp [hasDoubleDot, this]

theorem hasDoubleDot_reverse (l : List Char) :
    hasDoubleDot l.reverse = hasDoubleDot l := by
  by_cases h : hasDoubleDot l = true
  · have h2 : hasDoubleDot l.reverse = true := by
      obtain ⟨s, t, hst⟩ := (hasDoubleDot_iff l).mp h
      refine (hasDoubleDot_iff _).mpr ⟨t.reverse, s.reverse, ?_⟩
      simp [hst, List.reverse_append]
    rw [h, h2]
  · have h2 : ¬ hasDoubleDot l.reverse = true := by
      intro hr
      obtain ⟨s, t, hst⟩ := (hasDoubleDot_iff _).mp hr
      apply h
      refine (hasDoubleDot_iff l).mpr ⟨t.reverse, s.reverse, ?_⟩
      have h3 := congrArg List.reverse hst
      simpa [List.reverse_append] using h3
    rw [Bool.not_eq_true] at h h2
    rw [h, h2]

theorem hasDoubleDot_append_left (pre l : List Char) (h : hasDoubleDot l = true) :
    hasDoubleDot (pre ++ l) = true := by
  obtain ⟨s, t, hst⟩ := (hasDoubleDot_iff l).mp h
  exact (hasDoubleDot_iff _).mpr ⟨pre ++ s, t, by simp [hst]⟩

theorem hasDoubleDot_dropWhile (p : Char → Bool) (l : List Char)
    (h : hasDoubleDot l = false) : hasDoubleDot (l.dropWhile p) = false := by
  obtain ⟨pre, hpre⟩ := List.dropWhile_suffix (l := l) p
  by_contra hc
  rw [Bool.not_eq_false] at hc
  have h2 := hasDoubleDot_append_left pre _ hc
  rw [hpre, h] at h2
  exact Bool.false_ne_true h2

theorem hasDoubleDot_stripDotSpace (l : List Char) (h : hasDoubleDot l = false) :
    hasDoubleDot (stripDotSpace l) = false := by
  unfold stripDotSpace
  rw [hasDoubleDot_reverse]
  apply hasDoubleDot_dropWhile
  rw [hasDoubleDot_reverse]
  exact hasDoubleDot_dropWhile _ _ h

theorem collapseDots_subset (l : List Char) (c : Char) (h : c ∈ collapseDots l) :
    c ∈ l := by
  induction l with
  | nil => simp [collapseDots] at h
  | cons a l ih =>
    cases l with
    | nil => simpa [collapseDots] using h
    | cons d rest =>
      by_cases hp : a = '.' ∧ d = '.'
      · rw [collapseDots, if_pos hp] at h
        exact List.mem_cons_of_mem a (ih h)
      · rw [collapseDots, if_neg hp] at h
        rcases List.mem_cons.mp h with h | h
        · exact h ▸ List.mem_cons_self a _
        · exact List.mem_cons_of_mem a (ih h)

theorem stripDotSpace_subset (l : List Char) (c : Char) (h : c ∈ stripDotSpace l) :
    c ∈ l := by
  unfold stripDotSpace at h
  rw [List.mem_reverse] at h
  have h2 := (List.dropWhile_sublist _).subset h
  rw [List.mem_reverse] at h2
  exact (List.dropWhile_sublist _).subset h2

theorem stripBang_subset (l : List Char) (c : Char)
    (h : c ∈ stripLeadingBang (stripTrailingBang l)) : c ∈ l := by
  unfold stripLeadingBang stripTrailingBang at h
  have h2 := (List.dropWhile_sublist _).subset h
  rw [List.mem_reverse] at h2
  have h3 := (List.dropWhile_sublist _).subset h2
  rw [List.mem_reverse] at h3
  exact h3

theorem replaceIllegal_ok (l : List Char) (c : Char) (h : c ∈ replaceIllegal l) :
    isWindowsIllegal c = false := by
  unfold replaceIllegal at h
  obtain ⟨x, -, hx⟩ := List.mem_map.mp h
  by_cases hi : isWindowsIllegal x = true
  · rw [if_pos hi] at hx; rw [← hx]; decide
  · rw [Bool.not_eq_true] at hi
    rw [if_neg (by simp [hi])] at hx
    rw [← hx]; exact hi

theorem replaceTilde_ok (l : List Char)
    (hl : ∀ c ∈ l, isWindowsIllegal c = false) (c : Char) (h : c ∈ replaceTilde l) :
    isWindowsIllegal c = false := by
  unfold replaceTilde at h
  obtain ⟨x, hxl, hx⟩ := List.mem_map.mp h
  by_cases ht : x = '~'
  · rw [if_pos ht] at hx; rw [← hx]; decide
  · rw [if_neg ht] at hx; rw [← hx]; exact hl x hxl

/-- C8: every sanitized filename is free of the Windows-illegal characters
`\ / : * ? " < > |` and contains no run of two or more consecutive dots. -/
theorem sanitize_filename_invariants (s : String) :
    (∀ c ∈ (sanitize_filename s).data, isWindowsIllegal c = false) ∧
    hasDoubleDot (sanitize_filename s).data = false := by
  constructor
  · intro c hc
    have h1 := stripDotSpace_subset _ _ hc
    have h2 := collapseDots_subset _ _ h1
    have h3 := stripBang_subset _ _ h2
    have h4 : c ∈ replaceTilde (replaceIllegal s.data) :=
      (List.mem_filter.mp h3).1
    exact replaceTilde_ok _ (fun d hd => replaceIllegal_ok _ d hd) c h4
  · exact hasDoubleDot_stripDotSpace _ (hasDoubleDot_collapseDots _)

/-- Witness for C8 at a concrete input. -/
theorem sanitize_filename_invariants_witness :
    isWindowsIllegal 'a' = false ∧
    hasDoubleDot (sanitize_filename "a?..b|c").data = false := by
  have h := sanitize_filename_invariants "a?..b|c"
  exact ⟨h.1 'a' (by decide), h.2⟩

/-! ## `backend/agents/tools/strm_tools.py` : `_build_play_url`

`urllib.parse.quote(file_path, safe=ENCODE_URI_SAFE)` percent-encodes, byte by
byte over the UTF-8 encoding, every character that is neither in Python's
always-safe set (ASCII alphanumerics and `_ . - ~`) nor in the `safe`
parameter. -/

/-- UTF-8 byte sequence of a character (code points are valid scalars). -/
def utf8Bytes (c : Char) : List Nat :=
  let n := c.toNat
  if n < 0x80 then [n]
  else if n < 0x800 then [0xC0 + n / 0x40, 0x80 + n % 0x40]
  else if n < 0x10000 then
    [0xE0 + n / 0x1000, 0x80 + (n / 0x40) % 0x40, 0x80 + n % 0x40]
  else
    [0xF0 + n / 0x40000, 0x80 + (n / 0x1000) % 0x40, 0x80 + (n / 0x40) % 0x40,
      0x80 + n % 0x40]

/-- Upper-case hexadecimal digit, as `quote` emits. -/
def hexDigitChar (n : Nat) : Char :=
  if n < 10 then Char.ofNat (48 + n) else Char.ofNat (55 + n)

/-- `%XX` encoding of one byte. -/
def percentEncodeByte (b : Nat) : String :=
  String.mk ['%', hexDigitChar (b / 16), hexDigitChar (b % 16)]

/-- Python `urllib.parse.quote` never encodes ASCII alphanumerics or `_ . - ~`. -/
def pythonAlwaysSafe (c : Char) : Bool :=
  c.isAlpha || c.isDigit || c = '_' || c = '.' || c = '-' || c = '~'

/-- The `safe` argument used by `_build_play_url` (source constant
`ENCODE_URI_SAFE`). -/
def ENCODE_URI_SAFE : List Char := "-_.!~*'();/?:@&=+$,#".data

/-- A character `quote(..., safe=ENCODE_URI_SAFE)` leaves unencoded. -/
def quoteSafe (c : Char) : Bool :=
  pythonAlwaysSafe c || ENCODE_URI_SAFE.contains c

/-- Encoding of a single character under `quote(..., safe=ENCODE_URI_SAFE)`. -/
def encodeChar (c : Char) : String :=
  if quoteSafe c then String.singleton c
  else String.join ((utf8Bytes c).map percentEncodeByte)

/-- `quote(file_path, safe=ENCODE_URI_SAFE)` over the whole path. -/
def quotePath (path : String) : String :=
  String.join (path.data.map encodeChar)

/-- `base_url.rstrip('/')`. -/
def rstripSlash (s : String) : String :=
  String.mk (s.data.reverse.dropWhile (fun c => c = '/')).reverse

/-- `_build_play_url` from `backend/agents/tools/strm_tools.py`. -/
def build_play_url (base_url file_path storage_type : String) : String :=
  let encoded_path := quotePath file_path
  let base := rstripSlash base_url
  if storage_type = "alist" then base ++ "/d" ++ encoded_path
  else base ++ "/dav" ++ encoded_path

/-- Modelled from the spec's words: the characters the claim says are left
unencoded, namely alphanumerics and the listed punctuation. -/
def specEncodeURIUnescaped (c : Char) : Bool :=
  c.isAlphanum || ("-_.!~*'();/?:@&=+$,#".data).contains c

theorem quoteSafe_eq_spec (c : Char) : quoteSafe c = specEncodeURIUnescaped c := by
  by_cases h1 : c = '_'
  · subst h1; decide
  by_cases h2 : c = '.'
  · subst h2; decide
  by_cases h3 : c = '-'
  · subst h3; decide
  by_cases h4 : c = '~'
  · subst h4; decide
  simp [quoteSafe, pythonAlwaysSafe, specEncodeURIUnescaped, Char.isAlphanum,
    ENCODE_URI_SAFE, h1, h2, h3, h4, Bool.or_assoc]

example : build_play_url "http://host/" "/dir [1]/ep 2.mkv" "alist"
    = "http://host/d/dir%20%5B1%5D/ep%202.mkv" := by decide
example : build_play_url "http://host" "/a/b.mkv" "webdav"
    = "http://host/dav/a/b.mkv" := by decide
example : encodeChar '中' = "%E4%B8%AD" := by decide

/-- C7: the generated `.strm` content is the base URL (trailing slashes
stripped) plus `/d` (Alist) or `/dav` (WebDAV) plus the path encoded under the
JavaScript encodeURI rule: alphanumerics and the listed punctuation are kept,
every other character is percent-encoded byte-wise, and `/` is preserved. -/
theorem build_play_url_encoding (base path : String) (c : Char)
    (hc : specEncodeURIUnescaped c = true) :
    build_play_url base path "alist" = rstripSlash base ++ "/d" ++ quotePath path ∧
    build_play_url base path "webdav" = rstripSlash base ++ "/dav" ++ quotePath path ∧
    quotePath path = String.join (path.data.map encodeChar) ∧
    encodeChar c = String.singleton c ∧
    (∀ d : Char, specEncodeURIUnescaped d = false →
      encodeChar d = String.join ((utf8Bytes d).map percentEncodeByte)) ∧
    encodeChar '[' = "%5B" ∧ encodeChar ']' = "%5D" ∧ encodeChar ' ' = "%20" ∧
    encodeChar '/' = "/" := by
  refine ⟨by simp [build_play_url], by simp [build_play_url], rfl, ?_, ?_,
    by decide, by decide, by decide, by decide⟩
  · rw [encodeChar, if_pos (by rw [quoteSafe_eq_spec]; exact hc)]
  · intro d hd
    rw [encodeChar, if_neg]
    rw [quoteSafe_eq_spec, hd]
    exact Bool.false_ne_true

/-- Witness for C7 at a concrete character. -/
theorem build_play_url_encoding_witness :
    encodeChar 'a' = String.singleton 'a' ∧
    build_play_url "http://h/" "/x" "alist" = "http://h/d/x" := by
  have h := build_play_url_encoding "http://h/" "/x" 'a' (by decide)
  exact ⟨h.2.2.2.1, by decide⟩

/-! ## `backend/agents/tools/strm_tools.py` : subtitle defaulting -/

/-- `SubtitleFile` from `backend/agents/models/classify.py`. -/
structure SubtitleFile where
  path : String
  name : String
  language : String
deriving DecidableEq

/-- `SUBTITLE_LANGUAGE_PRIORITY` from `strm_tools.py`. -/
def SUBTITLE_LANGUAGE_PRIORITY : List String :=
  ["chs", "sc", "chsjp", "scjp", "cht", "tc", "chtjp", "tcjp",
   "eng", "en", "jpn", "jap", "jp", "und"]

/-- ASCII lowercasing (Python `str.lower()`; the language codes and extensions
involved are ASCII). -/
def lowerString (s : String) : String := String.mk (s.data.map Char.toLower)

/-- `_get_language_priority`: index in the priority list, 999 when absent;
an empty (falsy) language is treated as `und`. -/
def get_language_priority (lang : String) : Nat :=
  match SUBTITLE_LANGUAGE_PRIORITY.findIdx?
      (fun s => s = (if lang = "" then "und" else lowerString lang)) with
  | some i => i
  | none => 999

/-- `_select_default_subtitle`: Python `min(subtitles, key=...)`, which keeps
the earliest element among those with the minimal key. -/
def select_default_subtitle : List SubtitleFile → Option SubtitleFile
  | [] => none
  | s :: rest => some (rest.foldl (fun best x =>
      if get_language_priority x.language < get_language_priority best.language
      then x else best) s)

/-- Python `f"..02d.."` zero-padding to width 2 for a natural number. -/
def format2 (n : Nat) : String :=
  if n < 10 then "0" ++ toString n else toString n

/-- `os.path.splitext(name)[1]`: the suffix starting at the last dot, empty
when there is no dot or only leading dots precede it (names carry no path
separator here). -/
def splitextExt (name : String) : String :=
  let l := name.data
  match l.reverse.findIdx? (fun c => c = '.') with
  | none => ""
  | some j =>
    let i := l.length - 1 - j
    if (l.take i).any (fun c => c ≠ '.') then String.mk (l.drop i) else ""

example : splitextExt "a.srt" = ".srt" := by decide
example : splitextExt "archive.tar.GZ" = ".GZ" := by decide
example : splitextExt ".bashrc" = "" := by decide
example : splitextExt "noext" = "" := by decide

/-- `_format_subtitle_name` from `strm_tools.py`. -/
def format_subtitle_name (title : String) (season episode : Nat)
    (sub : SubtitleFile) (is_default : Bool) : String :=
  let ext := lowerString (splitextExt sub.name)
  if is_default then
    title ++ ".S" ++ format2 season ++ ".E" ++ format2 episode ++ ext
  else
    let lang := if sub.language = "" then "und" else sub.language
    title ++ ".S" ++ format2 season ++ ".E" ++ format2 episode ++ "." ++ lang ++ ext

/-- `SubtitleTask` from `strm_tools.py`. -/
structure SubtitleTask where
  source_path : String
  target_path : String
  is_default : Bool
deriving DecidableEq

/-- The subtitle-task collection `generate_strm` performs for one classified
TV file (the loop body guarded by `if cf.subtitles`): first the default task,
then one tagged task per subtitle.  `folder` is the season folder path. -/
def subtitle_tasks_for_episode (folder title : String) (season episode : Nat)
    (subs : List SubtitleFile) : List SubtitleTask :=
  if subs.isEmpty then []
  else
    (match select_default_subtitle subs with
      | none => []
      | some d =>
        [⟨d.path, folder ++ "/" ++ format_subtitle_name title season episode d true,
          true⟩]) ++
    subs.map (fun sub =>
      ⟨sub.path, folder ++ "/" ++ format_subtitle_name title season episode sub false,
        false⟩)

theorem select_default_mem (s : SubtitleFile) (rest : List SubtitleFile) :
    rest.foldl (fun best x =>
      if get_language_priority x.language < get_language_priority best.language
      then x else best) s ∈ s :: rest := by
  induction rest generalizing s with
  | nil => exact List.mem_singleton.mpr rfl
  | cons x rest ih =>
    simp only [List.foldl_cons]
    by_cases h : get_language_priority x.language <
        get_language_priority s.language
    · rw [if_pos h]
      exact List.mem_cons_of_mem s (ih x)
    · rw [if_neg h]
      rcases List.mem_cons.mp (ih s) with h1 | h1
      · rw [h1]
        exact List.mem_cons_self s _
      · exact List.mem_cons_of_mem s (List.mem_cons_of_mem x h1)

theorem select_default_min (s : SubtitleFile) (rest : List SubtitleFile) :
    ∀ y ∈ s :: rest,
      get_language_priority (rest.foldl (fun best x =>
        if get_language_priority x.language < get_language_priority best.language
        then x else best) s).language ≤ get_language_priority y.language := by
  induction rest generalizing s with
  | nil =>
    intro y hy
    rw [List.mem_singleton.mp hy]
    exact Nat.le_refl _
  | cons x rest ih =>
    intro y hy
    simp only [List.foldl_cons]
    by_cases h : get_language_priority x.language <
        get_language_priority s.language
    · rw [if_pos h]
      rcases List.mem_cons.mp hy with h1 | h1
      · rw [h1]
        exact Nat.le_trans (ih x x (List.mem_cons_self x rest)) (Nat.le_of_lt h)
      · exact ih x y h1
    · rw [if_neg h]
      rcases List.mem_cons.mp hy with h1 | h1
      · rw [h1]
        exact ih s s (List.mem_cons_self s rest)
      · rcases List.mem_cons.mp h1 with h2 | h2
        · rw [h2]
          exact Nat.le_trans (ih s s (List.mem_cons_self s rest))
            (Nat.le_of_not_lt h)
        · exact ih s y (List.mem_cons_of_mem s h2)

theorem findIdx?_eq_none_of_not_mem (l : List String) (a : String) (h : a ∉ l) :
    ∀ i, l.findIdx? (fun s => s = a) i = none := by
  induction l with
  | nil => intro i; rfl
  | cons b l ih =>
    intro i
    rw [List.findIdx?_cons]
    have hb : b ≠ a := fun hba => h (hba ▸ List.mem_cons_self b l)
    rw [if_neg (by simpa using hb)]
    exact ih (fun hm => h (List.mem_cons_of_mem b hm)) (i + 1)

/-- C6: for a classified video with a non-empty subtitle list, exactly one
default task is emitted, for a subtitle of minimal index in the priority list
(languages not listed get priority 999, ranking after `und`), its target name
carrying no language tag; and every subtitle of the list (the defaulted one
included) is emitted once more as a language-tagged task. -/
theorem subtitle_default_selection (folder title : String) (season episode : Nat)
    (subs : List SubtitleFile) (hne : subs ≠ []) :
    ∃ d, select_default_subtitle subs = some d ∧
      d ∈ subs ∧
      (∀ y ∈ subs,
        get_language_priority d.language ≤ get_language_priority y.language) ∧
      subtitle_tasks_for_episode folder title season episode subs =
        ⟨d.path,
          folder ++ "/" ++ (title ++ ".S" ++ format2 season ++ ".E" ++
            format2 episode ++ lowerString (splitextExt d.name)), true⟩ ::
        subs.map (fun sub =>
          ⟨sub.path,
            folder ++ "/" ++ format_subtitle_name title season episode sub false,
            false⟩) ∧
      (subtitle_tasks_for_episode folder title season episode subs).countP
        (fun t => t.is_default) = 1 ∧
      (∀ lang : String, lang ≠ "" → lowerString lang ∉ SUBTITLE_LANGUAGE_PRIORITY →
        get_language_priority lang = 999 ∧
        get_language_priority "und" < get_language_priority lang) := by
  obtain ⟨s, rest, rfl⟩ : ∃ s rest, subs = s :: rest := by
    cases subs with
    | nil => exact absurd rfl hne
    | cons s rest => exact ⟨s, rest, rfl⟩
  have hT : subtitle_tasks_for_episode folder title season episode (s :: rest) =
      ⟨(rest.foldl (fun best x =>
          if get_language_priority x.language < get_language_priority best.language
          then x else best) s).path,
        folder ++ "/" ++ (title ++ ".S" ++ format2 season ++ ".E" ++
          format2 episode ++ lowerString (splitextExt (rest.foldl (fun best x =>
            if get_language_priority x.language <
              get_language_priority best.language
            then x else best) s).name)), true⟩ ::
      (s :: rest).map (fun sub =>
        ⟨sub.path,
          folder ++ "/" ++ format_subtitle_name title season episode sub false,
          false⟩) := by
    simp [subtitle_tasks_for_episode, select_default_subtitle,
      format_subtitle_name]
  refine ⟨_, rfl, select_default_mem s rest, select_default_min s rest, hT, ?_, ?_⟩
  · rw [hT, List.countP_cons]
    have h0 : ((s :: rest).map (fun sub =>
        (⟨sub.path,
          folder ++ "/" ++ format_subtitle_name title season episode sub false,
          false⟩ : SubtitleTask))).countP (fun t => t.is_default) = 0 := by
      rw [List.countP_eq_zero]
      intro t ht
      obtain ⟨sub, -, hsub⟩ := List.mem_map.mp ht
      rw [← hsub]
      simp
    rw [h0]
    simp
  · intro lang hlne hnm
    have hl : get_language_priority lang = 999 := by
      simp only [get_language_priority, if_neg hlne,
        findIdx?_eq_none_of_not_mem _ _ hnm 0]
    have hu : get_language_priority "und" = 13 := by decide
    omega

/-- Witness for C6 at a concrete subtitle list. -/
theorem subtitle_default_selection_witness :
    select_default_subtitle
        [⟨"/s/a.cht.ass", "a.cht.ass", "cht"⟩,
         ⟨"/s/a.chs.ass", "a.chs.ass", "chs"⟩,
         ⟨"/s/a.eng.srt", "a.eng.srt", "eng"⟩] =
      some ⟨"/s/a.chs.ass", "a.chs.ass", "chs"⟩ ∧
    (subtitle_tasks_for_episode "/t/Season 01" "T" 1 2
        [⟨"/s/a.cht.ass", "a.cht.ass", "cht"⟩,
         ⟨"/s/a.chs.ass", "a.chs.ass", "chs"⟩,
         ⟨"/s/a.eng.srt", "a.eng.srt", "eng"⟩]).countP
      (fun t => t.is_default) = 1 := by
  obtain ⟨d, hsel, -, -, -, hcount, -⟩ :=
    subtitle_default_selection "/t/Season 01" "T" 1 2
      [⟨"/s/a.cht.ass", "a.cht.ass", "cht"⟩,
       ⟨"/s/a.chs.ass", "a.chs.ass", "chs"⟩,
       ⟨"/s/a.eng.srt", "a.eng.srt", "eng"⟩] (by decide)
  refine ⟨?_, hcount⟩
  rw [hsel]
  congr 1
  have : d = ⟨"/s/a.chs.ass", "a.chs.ass", "chs"⟩ := by
    have h2 := hsel
    simp only [select_default_subtitle] at h2
    rw [← Option.some_inj]
    rw [← h2]
    decide
  exact this

/-! ## `strm_tools.py` : `retry_failed_uploads`

The tool reads `state.failed_uploads`, returns immediately when it is empty or
when the storage services are missing, and otherwise retries each entry of
type `subtitle` (synchronous download then upload), collecting the still
failing ones.  Download/upload outcomes are supplied by oracles; the storage
operations performed are collected in a trace. -/

/-- One entry of `state.failed_uploads`. -/
structure FailedUpload where
  source_path : String
  target_path : String
  type : String
  error : String
deriving DecidableEq

/-- Outcome of `source_service.get_file_content`. -/
inductive DownloadResult
  | content (s : String)
  | empty
  | exn (msg : String)
deriving DecidableEq

/-- Outcome of `target_service.put_file_content`. -/
inductive UploadResult
  | ok
  | failed
  | exn (msg : String)
deriving DecidableEq

/-- A storage read or write performed by the retry pass. -/
inductive StorageOp
  | download (path : String)
  | upload (path : String)
deriving DecidableEq

/-- Accumulated result of the retry loop. -/
structure RetryOutcome where
  success_count : Nat
  error_count : Nat
  still_failed : List FailedUpload
  ops : List StorageOp
deriving DecidableEq

/-- The `for item in failed_uploads` loop of `retry_failed_uploads`. -/
def retry_loop (dl : String → DownloadResult) (ul : String → UploadResult) :
    List FailedUpload → RetryOutcome
  | [] => ⟨0, 0, [], []⟩
  | item :: rest =>
    let r := retry_loop dl ul rest
    if item.type ≠ "subtitle" then r
    else
      match dl item.source_path with
      | .exn m =>
        ⟨r.success_count, r.error_count + 1,
          ⟨item.source_path, item.target_path, "subtitle", m⟩ :: r.still_failed,
          .download item.source_path :: r.ops⟩
      | .empty =>
        ⟨r.success_count, r.error_count + 1,
          ⟨item.source_path, item.target_path, "subtitle",
            "下载失败（返回空内容）"⟩ :: r.still_failed,
          .download item.source_path :: r.ops⟩
      | .content _ =>
        match ul item.target_path with
        | .ok =>
          ⟨r.success_count + 1, r.error_count, r.still_failed,
            .download item.source_path :: .upload item.target_path :: r.ops⟩
        | .failed =>
          ⟨r.success_count, r.error_count + 1,
            ⟨item.source_path, item.target_path, "subtitle",
              "上传失败（API返回失败）"⟩ :: r.still_failed,
            .download item.source_path :: .upload item.target_path :: r.ops⟩
        | .exn m =>
          ⟨r.success_count, r.error_count + 1,
            ⟨item.source_path, item.target_path, "subtitle", m⟩ :: r.still_failed,
            .download item.source_path :: .upload item.target_path :: r.ops⟩

/-- Observable result of one `retry_failed_uploads` call: the storage trace
and the `failed_uploads` entry of the returned `state_update` (when any). -/
structure RetryCallResult where
  ops : List StorageOp
  update : Option (List FailedUpload)
deriving DecidableEq

/-- `retry_failed_uploads` from `strm_tools.py`: early return on an empty
failure list or missing services, otherwise run the loop and always write
`failed_uploads` back (the still-failing list, possibly empty). -/
def retry_failed_uploads (servicesOk : Bool)
    (dl : String → DownloadResult) (ul : String → UploadResult)
    (failed_uploads : List FailedUpload) : RetryCallResult :=
  if failed_uploads.isEmpty then ⟨[], none⟩
  else if ¬ servicesOk then ⟨[], none⟩
  else
    let r := retry_loop dl ul failed_uploads
    ⟨r.ops, some r.still_failed⟩

/-- The session's `failed_uploads` after the call: unchanged when the tool
returned no `state_update`, else the written-back list. -/
def effective_failed (old : List FailedUpload) (res : RetryCallResult) :
    List FailedUpload :=
  match res.update with
  | none => old
  | some l => l

/-- C9: retrying with an empty `failed_uploads` list performs no storage
operation and leaves `failed_uploads` empty. -/
theorem retry_empty_noop (servicesOk : Bool) (dl : String → DownloadResult)
    (ul : String → UploadResult) :
    (retry_failed_uploads servicesOk dl ul []).ops = [] ∧
    effective_failed [] (retry_failed_uploads servicesOk dl ul []) = [] :=
  ⟨rfl, rfl⟩

theorem retry_loop_still_failed_type (dl : String → DownloadResult)
    (ul : String → UploadResult) (entries : List FailedUpload) :
    ∀ f ∈ (retry_loop dl ul entries).still_failed, f.type = "subtitle" := by
  induction entries with
  | nil => intro f hf; simp [retry_loop] at hf
  | cons item rest ih =>
    intro f hf
    simp only [retry_loop] at hf
    split at hf
    · exact ih f hf
    · split at hf
      all_goals try split at hf
      all_goals
        first
          | exact ih f hf
          | (rcases List.mem_cons.mp hf with h1 | h1 <;>
              first
                | rw [h1]
                | exact ih f h1)

theorem retry_loop_filter (dl : String → DownloadResult)
    (ul : String → UploadResult) (entries : List FailedUpload) :
    retry_loop dl ul entries =
      retry_loop dl ul (entries.filter (fun e => e.type = "subtitle")) := by
  induction entries with
  | nil => rfl
  | cons item rest ih =>
    by_cases h : item.type = "subtitle"
    · simp [retry_loop, List.filter_cons, h, ih]
    · simp [retry_loop, List.filter_cons, h, ih]

/-- C10: during a retry pass every non-`subtitle` entry is skipped (filtering
them away does not change the outcome), never reappears in the written-back
list, and when every entry is non-`subtitle` the pass reports 0 successes and
0 failures and writes back an empty `failed_uploads`. -/
theorem retry_non_subtitle_skipped (dl : String → DownloadResult)
    (ul : String → UploadResult) (entries : List FailedUpload) :
    retry_loop dl ul entries =
      retry_loop dl ul (entries.filter (fun e => e.type = "subtitle")) ∧
    (∀ e ∈ entries, e.type ≠ "subtitle" →
      e ∉ (retry_loop dl ul entries).still_failed) ∧
    ((∀ e ∈ entries, e.type ≠ "subtitle") →
      retry_loop dl ul entries = ⟨0, 0, [], []⟩ ∧
      (entries ≠ [] →
        retry_failed_uploads true dl ul entries = ⟨[], some []⟩)) := by
  refine ⟨retry_loop_filter dl ul entries, ?_, ?_⟩
  · intro e he hne hmem
    exact hne (retry_loop_still_failed_type dl ul entries e hmem)
  · intro hall
    have hfilt : entries.filter (fun e => e.type = "subtitle") = [] := by
      rw [List.filter_eq_nil_iff]
      intro e he
      simpa using hall e he
    have hbase : retry_loop dl ul entries = ⟨0, 0, [], []⟩ := by
      rw [retry_loop_filter dl ul entries, hfilt]; rfl
    refine ⟨hbase, fun hne => ?_⟩
    have hemp : entries.isEmpty = false := by
      cases entries with
      | nil => exact absurd rfl hne
      | cons a l => rfl
    simp [retry_failed_uploads, hemp, hbase]

/-- Witness for C10 at a concrete all-non-subtitle failure list. -/
theorem retry_non_subtitle_skipped_witness :
    retry_failed_uploads true (fun _ => DownloadResult.empty)
        (fun _ => UploadResult.failed)
        [⟨"/a", "/b", "strm", "x"⟩] = ⟨[], some []⟩ := by
  have h := retry_non_subtitle_skipped (fun _ => DownloadResult.empty)
      (fun _ => UploadResult.failed) [⟨"/a", "/b", "strm", "x"⟩]
  exact (h.2.2 (by decide)).2 (by decide)

/-! ## `backend/agents/classifier.py` : `extract_episode_number`

The two `re.sub` cleaning passes and the six search patterns are compiled by
hand.  `re.search` scans candidate positions left to right and applies the
usual backtracking preferences at each position (greedy quantifiers try the
longest repetition first); the one-character classes of `\s` are modelled over
ASCII whitespace. -/

/-- Case-insensitive `[xh]`. -/
def isXH (c : Char) : Bool := c = 'x' || c = 'X' || c = 'h' || c = 'H'

/-- `[45]`. -/
def is45 (c : Char) : Bool := c = '4' || c = '5'

/-- `re.sub(r'[xh]26[45]', '', filename, flags=re.IGNORECASE)`:
remove every non-overlapping occurrence, continuing after each removal. -/
def stripCodec1 : List Char → List Char
  | a :: b :: c :: d :: rest =>
    if isXH a && b = '2' && c = '6' && is45 d then stripCodec1 rest
    else a :: stripCodec1 (b :: c :: d :: rest)
  | l => l

/-- Case-insensitive single-character comparison against a lower-case letter. -/
def lowEq (c : Char) (d : Char) : Bool := c.toLower = d

def startsHEVC : List Char → Bool
  | a :: b :: c :: d :: _ => lowEq a 'h' && lowEq b 'e' && lowEq c 'v' && lowEq d 'c'
  | _ => false

def startsAVC : List Char → Bool
  | a :: b :: c :: _ => lowEq a 'a' && lowEq b 'v' && lowEq c 'c'
  | _ => false

def startsMa10p : List Char → Bool
  | a :: b :: c :: d :: e :: _ =>
    lowEq a 'm' && lowEq b 'a' && c = '1' && d = '0' && lowEq e 'p'
  | _ => false

def starts10bit : List Char → Bool
  | a :: b :: c :: d :: e :: _ =>
    a = '1' && b = '0' && lowEq c 'b' && lowEq d 'i' && lowEq e 't'
  | _ => false

/-- `re.sub(r'HEVC|AVC|Ma10p|10bit', '', clean_name, flags=re.IGNORECASE)`:
at each position the alternatives are tried in pattern order.  The fuel
argument (one unit per consumed character, initialised to the length) only
serves structural recursion and is never exhausted. -/
def stripCodec2Fuel : Nat → List Char → List Char
  | 0, l => l
  | _ + 1, [] => []
  | fuel + 1, c :: rest =>
    if startsHEVC (c :: rest) then stripCodec2Fuel fuel (rest.drop 3)
    else if startsAVC (c :: rest) then stripCodec2Fuel fuel (rest.drop 2)
    else if startsMa10p (c :: rest) then stripCodec2Fuel fuel (rest.drop 4)
    else if starts10bit (c :: rest) then stripCodec2Fuel fuel (rest.drop 4)
    else c :: stripCodec2Fuel fuel rest

def stripCodec2 (l : List Char) : List Char := stripCodec2Fuel l.length l

example : stripCodec1 "Show.x265.E05".data = "Show..E05".data := by decide
example : stripCodec2 "Show.HEVC.Ma10p.E05".data = "Show...E05".data := by decide

/-- A pattern matcher anchored at one position: receives the previous
character (for lookbehind) and the remaining text, and returns the captured
digit group when the pattern matches here. -/
abbrev EpMatcher := Option Char → List Char → Option (List Char)

/-- `re.search`: try the matcher at each position, left to right. -/
def searchAt (m : EpMatcher) : Option Char → List Char → Option (List Char)
  | prev, [] => m prev []
  | prev, c :: rest =>
    match m prev (c :: rest) with
    | some g => some g
    | none => searchAt m (some c) rest

/-- Greedy `(\d{2,4})` with nothing after the group: the group takes
`min 4 (length of the digit run)` characters and needs at least 2. -/
def digits24NoFollow (l : List Char) : Option (List Char) :=
  let run := (l.takeWhile Char.isDigit).take 4
  if run.length ≥ 2 then some run else none

/-- One backtracking step: a group of exactly `k` digits followed by a
character satisfying `p`. -/
def tryDigitsK (k : Nat) (p : Char → Bool) (l : List Char) : Option (List Char) :=
  let pre := l.take k
  if pre.length = k && pre.all Char.isDigit then
    match l.drop k with
    | c :: _ => if p c then some pre else none
    | [] => none
  else none

/-- Greedy `(\d{2,4})` followed by a character of class `p` (try 4, 3, 2). -/
def digits24Then (p : Char → Bool) (l : List Char) : Option (List Char) :=
  ((tryDigitsK 4 p l).orElse fun _ =>
    (tryDigitsK 3 p l).orElse fun _ => tryDigitsK 2 p l)

/-- Greedy `(\d{1,4})` followed by a character of class `p` (try 4, 3, 2, 1). -/
def digits14Then (p : Char → Bool) (l : List Char) : Option (List Char) :=
  ((tryDigitsK 4 p l).orElse fun _ =>
    (tryDigitsK 3 p l).orElse fun _ =>
      (tryDigitsK 2 p l).orElse fun _ => tryDigitsK 1 p l)

def isE (c : Char) : Bool := c = 'E' || c = 'e'
def isP (c : Char) : Bool := c = 'P' || c = 'p'

/-- Pattern 1, `EP?\.?(\d{2,4})` (IGNORECASE).  The optional `P` and `.` are
consumed greedily; if the group then fails, backtracking over the options
cannot succeed either because `P`/`.` are not digits, so the simplification to
a single branch per option is exact. -/
def matchP1 : EpMatcher := fun _ l =>
  match l with
  | c :: rest =>
    if isE c then
      match rest with
      | p :: rest2 =>
        if isP p then
          match rest2 with
          | d :: rest3 =>
            if d = '.' then digits24NoFollow rest3 else digits24NoFollow rest2
          | [] => none
        else if p = '.' then digits24NoFollow rest2
        else digits24NoFollow rest
      | [] => none
    else none
  | [] => none

/-- Pattern 2, `(?<![xh])E(\d{2,4})` (IGNORECASE). -/
def matchP2 : EpMatcher := fun prev l =>
  match l with
  | c :: rest =>
    if isE c then
      match prev with
      | some p => if isXH p then none else digits24NoFollow rest
      | none => digits24NoFollow rest
    else none
  | [] => none

def isEpSuffix (c : Char) : Bool := c = '集' || c = '话' || c = '話'

/-- Pattern 3, `第(\d{1,4})[集话話]`. -/
def matchP3 : EpMatcher := fun _ l =>
  match l with
  | c :: rest => if c = '第' then digits14Then isEpSuffix rest else none
  | [] => none

/-- Pattern 4, `\[(\d{2,4})\]`. -/
def matchP4 : EpMatcher := fun _ l =>
  match l with
  | c :: rest => if c = '[' then digits24Then (fun d => d = ']') rest else none
  | [] => none

/-- ASCII `\s`. -/
def isSpaceChar (c : Char) : Bool :=
  c = ' ' || c = '\t' || c = '\n' || c = '\r' || c = '\x0b' || c = '\x0c'

def isDelim1 (c : Char) : Bool := c = '.' || isSpaceChar c || c = '-' || c = '_'
def isDelim2 (c : Char) : Bool := isDelim1 c || c = '['

/-- Pattern 5, `[\.\s\-_](\d{2,4})[\.\s\-_\[]`. -/
def matchP5 : EpMatcher := fun _ l =>
  match l with
  | c :: rest => if isDelim1 c then digits24Then isDelim2 rest else none
  | [] => none

/-- Pattern 6, `S\d+E(\d{2,4})` (IGNORECASE).  `\d+` is effectively the
maximal digit run: consuming fewer digits leaves a digit where `E` is
required. -/
def matchP6 : EpMatcher := fun _ l =>
  match l with
  | c :: rest =>
    if c = 'S' || c = 's' then
      let run := rest.takeWhile Char.isDigit
      if run.length ≥ 1 then
        match rest.drop run.length with
        | e :: rest2 => if isE e then digits24NoFollow rest2 else none
        | [] => none
      else none
    else none
  | [] => none

/-- `int` of a digit group. -/
def intOfDigits (l : List Char) : Nat :=
  l.foldl (fun acc c => acc * 10 + (c.toNat - 48)) 0

/-- The `for pattern in patterns` loop: only the first match of each pattern
is examined; when its value is out of range the next pattern is tried. -/
def extractGo : List EpMatcher → List Char → Nat
  | [], _ => 0
  | m :: ms, l =>
    match searchAt m none l with
    | some g =>
      let ep := intOfDigits g
      if ep < 1000 && ep > 0 then ep else extractGo ms l
    | none => extractGo ms l

/-- `extract_episode_number` from `backend/agents/classifier.py`. -/
def extract_episode_number (filename : String) : Nat :=
  extractGo [matchP1, matchP2, matchP3, matchP4, matchP5, matchP6]
    (stripCodec2 (stripCodec1 filename.data))

example : extract_episode_number "[Sub] Show - 03 [1080p].mkv" = 3 := by decide
example : extract_episode_number "EP.05.mkv" = 5 := by decide
example : extract_episode_number "Show.S02E08.mkv" = 8 := by decide
example : extract_episode_number "第12集" = 12 := by decide
example : extract_episode_number "[07]" = 7 := by decide
example : extract_episode_number "Show 1080p" = 0 := by decide
example : extract_episode_number "Show.1080.mkv" = 0 := by decide
example : extract_episode_number "Show.x265.mkv" = 0 := by decide
example : extract_episode_number "E00" = 0 := by decide
example : extract_episode_number "ShowE1234x.mkv" = 0 := by decide
example : extract_episode_number "xE05" = 5 := by decide
example : extract_episode_number "EP005" = 5 := by decide
example : extract_episode_number "E.12" = 12 := by decide
example : extract_episode_number "EPP12" = 0 := by decide
example : extract_episode_number "s12e0034" = 34 := by decide
example : extract_episode_number "第1234话" = 0 := by decide
example : extract_episode_number "第12345集" = 0 := by decide
example : extract_episode_number "[Group] Title 第08話 [720p]" = 8 := by decide
example : extract_episode_number "abc.def-45_ghi" = 45 := by decide
example : extract_episode_number "test_999[" = 999 := by decide
example : extract_episode_number "A.0001.B" = 1 := by decide
example : extract_episode_number "S01E1080" = 0 := by decide
example : extract_episode_number "E1 2" = 0 := by decide
example : extract_episode_number "a 00 b" = 0 := by decide
example : extract_episode_number "Show.x264.1080p.E07" = 7 := by decide
example : extract_episode_number "Ma10p.E3" = 0 := by decide
example : extract_episode_number "10bit_E33" = 33 := by decide
example : extract_episode_number "HEVCE22" = 22 := by decide
example : extract_episode_number "E05x265" = 5 := by decide
example : extract_episode_number "[12]34" = 12 := by decide
example : extract_episode_number "SS01E02" = 2 := by decide
example : extract_episode_number "SE05" = 5 := by decide
example : extract_episode_number "E23456" = 0 := by decide

/-! ## `backend/agents/models/tmdb_mapping.py` : the mapping table

Python dicts are association lists: insertion appends, lookup returns the
last binding.  Negative or malformed season numbers in a context make the
lookup miss, as in the source (`int` failure is caught; a number that is not
a `Nat` cannot be a key of the table built below). -/

/-- `EpisodeInfo` from `tmdb_mapping.py`. -/
structure EpisodeInfo where
  season : Nat
  episode_in_season : Nat
  tmdb_episode : Nat
  cumulative : Nat
deriving DecidableEq

/-- `EpisodeInfo.to_output_name`: the `SxxExx` output format, built from the
season and the TMDB episode number. -/
def EpisodeInfo.to_output_name (e : EpisodeInfo) : String :=
  "S" ++ format2 e.season ++ "E" ++ format2 e.tmdb_episode

/-- Python-dict lookup on an insertion-ordered association list:
the last binding wins. -/
def dictLookup {α β : Type} [DecidableEq α] (l : List (α × β)) (k : α) :
    Option β :=
  (l.reverse.find? (fun p => decide (p.1 = k))).map Prod.snd

/-- `TMDBMapping` from `tmdb_mapping.py`. -/
structure TMDBMapping where
  tmdb_id : Nat
  title : String
  media_type : String
  by_cumulative : List (Nat × EpisodeInfo)
  by_season_episode : List ((Nat × Nat) × EpisodeInfo)
  total_seasons : Nat
  total_episodes : Nat
deriving DecidableEq

/-- Python `str.split(sep)` for a one-character separator. -/
def splitOnCharAux (sep : Char) : List Char → List Char → List (List Char)
  | [], acc => [acc.reverse]
  | c :: rest, acc =>
    if c = sep then acc.reverse :: splitOnCharAux sep rest []
    else splitOnCharAux sep rest (c :: acc)

def splitOnChar (sep : Char) (l : List Char) : List (List Char) :=
  splitOnCharAux sep l []

/-- `str.startswith(pre)`. -/
def strStartsWith (s pre : String) : Bool := pre.data.isPrefixOf s.data

/-- `int(s)` restricted to plain decimal numerals (`IndexError`/`ValueError`
become `none`; signs or whitespace, which no `season_N` context uses, are not
modelled — they could only name seasons absent from the table). -/
def listToNat? (l : List Char) : Option Nat :=
  if l ≠ [] ∧ l.all Char.isDigit then some (intOfDigits l) else none

/-- `int(context.split("_")[1])`, with `IndexError`/`ValueError` as `none`. -/
def parseSeasonNumber (context : String) : Option Nat :=
  match (splitOnChar '_' context.data).get? 1 with
  | none => none
  | some s => listToNat? s

/-- `TMDBMapping.lookup` from `tmdb_mapping.py`. -/
def TMDBMapping.lookup (m : TMDBMapping) (context : String) (number : Nat) :
    Option EpisodeInfo :=
  if context = "cumulative" then dictLookup m.by_cumulative number
  else if strStartsWith context "season_" then
    match parseSeasonNumber context with
    | some season => dictLookup m.by_season_episode (season, number)
    | none => none
  else none

example : parseSeasonNumber "season_2" = some 2 := by decide
example : parseSeasonNumber "season_03" = some 3 := by decide
example : parseSeasonNumber "season_x" = none := by decide
example : parseSeasonNumber "cumulative" = none := by decide

/-- `ClassifyResult` from `classifier.py` (the unused `subtitles` field is
kept with its empty default). -/
structure ClassifyResult where
  file_path : String
  file_name : String
  extracted_number : Nat
  status : String
  error_message : String
  tmdb_id : Nat
  season : Nat
  episode : Nat
  output_name : String
  subtitles : List SubtitleFile := []
deriving DecidableEq

/-- `classify_file` from `classifier.py`. -/
def classify_file (file_path file_name context : String) (mapping : TMDBMapping) :
    ClassifyResult :=
  let number := extract_episode_number file_name
  if number = 0 then
    { file_path := file_path, file_name := file_name, extracted_number := 0,
      status := "error", error_message := "无法从文件名提取编号",
      tmdb_id := 0, season := 0, episode := 0, output_name := "" }
  else
    match mapping.lookup context number with
    | none =>
      { file_path := file_path, file_name := file_name,
        extracted_number := number, status := "unmatched",
        error_message := "编号 " ++ toString number ++ " 在 context=" ++ context
          ++ " 下未找到对应集数",
        tmdb_id := 0, season := 0, episode := 0, output_name := "" }
    | some e =>
      { file_path := file_path, file_name := file_name,
        extracted_number := number, status := "matched", error_message := "",
        tmdb_id := mapping.tmdb_id, season := e.season,
        episode := e.tmdb_episode, output_name := e.to_output_name }

theorem extractGo_range (ms : List EpMatcher) (l : List Char) :
    extractGo ms l = 0 ∨ (1 ≤ extractGo ms l ∧ extractGo ms l ≤ 999) := by
  induction ms with
  | nil => exact Or.inl rfl
  | cons m ms ih =>
    simp only [extractGo]
    split
    all_goals try exact ih
    split
    all_goals try exact ih
    rename_i hg
    simp only [Bool.and_eq_true, decide_eq_true_eq] at hg
    exact Or.inr ⟨hg.2, by omega⟩

/-- C3: episode extraction first strips codec markers, then tries the six
patterns in order, accepting only a first match in the range 1..999; the
result is always 0 (which classifies the file as an error) or lies in
1..999 — 0 itself and values of 1000 or more are never returned. -/
theorem extract_episode_number_range (name : String) :
    (extract_episode_number name = 0 ∨
      (1 ≤ extract_episode_number name ∧ extract_episode_number name ≤ 999)) ∧
    (extract_episode_number name = 0 → ∀ fp ctx m,
      (classify_file fp name ctx m).status = "error") := by
  constructor
  · exact extractGo_range _ _
  · intro h fp ctx m
    simp [classify_file, h]

/-- Witness for C3: a name with no extractable number yields status error;
1080 in a resolution-like name is not accepted. -/
theorem extract_episode_number_range_witness :
    (classify_file "/d/f.mkv" "Show.1080.mkv" "cumulative"
      ⟨1, "T", "tv", [], [], 0, 0⟩).status = "error" := by
  have h := extract_episode_number_range "Show.1080.mkv"
  exact h.2 (by decide) "/d/f.mkv" "cumulative" ⟨1, "T", "tv", [], [], 0, 0⟩

/-- C2: for a TV file whose extracted number is a nonzero `n`, context
`cumulative` consults `by_cumulative n` and context `season_N` consults
`by_season_episode (N, n)`; a miss gives status `unmatched`, a hit gives
status `matched` with the entry's season, the canonical TMDB episode number,
and output name `S` season `E` canonical-episode, both zero-padded. -/
theorem classify_file_table_lookup (fp fn : String) (m : TMDBMapping) (n : Nat)
    (hn : extract_episode_number fn = n) (hpos : n ≠ 0) :
    ((dictLookup m.by_cumulative n = none →
        (classify_file fp fn "cumulative" m).status = "unmatched") ∧
      (∀ e, dictLookup m.by_cumulative n = some e →
        classify_file fp fn "cumulative" m =
          { file_path := fp, file_name := fn, extracted_number := n,
            status := "matched", error_message := "", tmdb_id := m.tmdb_id,
            season := e.season, episode := e.tmdb_episode,
            output_name :=
              "S" ++ format2 e.season ++ "E" ++ format2 e.tmdb_episode })) ∧
    (∀ ctx N, strStartsWith ctx "season_" = true → parseSeasonNumber ctx = some N →
      (dictLookup m.by_season_episode (N, n) = none →
        (classify_file fp fn ctx m).status = "unmatched") ∧
      (∀ e, dictLookup m.by_season_episode (N, n) = some e →
        classify_file fp fn ctx m =
          { file_path := fp, file_name := fn, extracted_number := n,
            status := "matched", error_message := "", tmdb_id := m.tmdb_id,
            season := e.season, episode := e.tmdb_episode,
            output_name :=
              "S" ++ format2 e.season ++ "E" ++ format2 e.tmdb_episode })) := by
  constructor
  · constructor
    · intro hnone
      simp [classify_file, hn, hpos, TMDBMapping.lookup, hnone]
    · intro e he
      simp [classify_file, hn, hpos, TMDBMapping.lookup, he,
        EpisodeInfo.to_output_name]
  · intro ctx N hstart hparse
    have hne : ctx ≠ "cumulative" := by
      intro hc
      rw [hc] at hstart
      exact absurd hstart (by decide)
    constructor
    · intro hnone
      simp [classify_file, hn, hpos, TMDBMapping.lookup, hne, hstart, hparse,
        hnone]
    · intro e he
      simp [classify_file, hn, hpos, TMDBMapping.lookup, hne, hstart, hparse,
        he, EpisodeInfo.to_output_name]

/-- Witness for C2 at a concrete mapping, showing the canonical TMDB episode
number (6) is used rather than the in-season index (5). -/
theorem classify_file_table_lookup_witness :
    classify_file "/f" "[05]" "season_2"
        ⟨7, "T", "tv", [(5, ⟨2, 5, 6, 5⟩)], [((2, 5), ⟨2, 5, 6, 5⟩)], 2, 5⟩ =
      ⟨"/f", "[05]", 5, "matched", "", 7, 2, 6, "S02E06", []⟩ := by
  have h := classify_file_table_lookup "/f" "[05]"
      ⟨7, "T", "tv", [(5, ⟨2, 5, 6, 5⟩)], [((2, 5), ⟨2, 5, 6, 5⟩)], 2, 5⟩ 5
      (by decide) (by decide)
  exact (h.2 "season_2" 2 (by decide) (by decide)).2 ⟨2, 5, 6, 5⟩ (by decide)

/-! ## `tmdb_mapping.py` : `build_episode_mapping`

The TMDB service is an oracle: `get_tv_details` yields the season count (or
nothing, aborting the build), `get_tv_season s` yields the episode list of
season `s` (or nothing when the fetch fails / the response is falsy). -/

/-- The fields of a TMDB episode dict that the builder reads:
`ep.get('episode_number', i + 1)`. -/
structure SeasonEpisode where
  episode_number : Option Nat
deriving DecidableEq

/-- The fields of `get_tv_details` that the builder reads. -/
structure TvInfo where
  title_zh : Option String
  title : Option String
  seasons_count : Option Nat
deriving DecidableEq

/-- Oracle for the TMDB service. -/
structure TMDBServiceModel where
  get_tv_details : Option TvInfo
  get_tv_season : Nat → Option (List SeasonEpisode)

/-- Python `a or b` on an optional string (`None` and `""` are falsy). -/
def pyStrOr (a : Option String) (b : String) : String :=
  match a with
  | some s => if s = "" then b else s
  | none => b

/-- The mutable loop state of `build_episode_mapping`. -/
structure BuildState where
  cumulative : Nat
  by_cumulative : List (Nat × EpisodeInfo)
  by_season_episode : List ((Nat × Nat) × EpisodeInfo)
deriving DecidableEq

/-- One inner-loop iteration: allocate the next cumulative number and insert
the row into both tables. -/
def addEpisode (season_num : Nat) (st : BuildState) (i : Nat)
    (ep : SeasonEpisode) : BuildState :=
  let cum := st.cumulative + 1
  let tmdb_ep := ep.episode_number.getD (i + 1)
  let info : EpisodeInfo := ⟨season_num, i + 1, tmdb_ep, cum⟩
  ⟨cum, st.by_cumulative ++ [(cum, info)],
    st.by_season_episode ++ [((season_num, i + 1), info)]⟩

/-- `for i, ep in enumerate(episodes)` starting at index `i`. -/
def addEpisodesFrom (season_num : Nat) : Nat → List SeasonEpisode → BuildState →
    BuildState
  | _, [], st => st
  | i, ep :: rest, st =>
    addEpisodesFrom season_num (i + 1) rest (addEpisode season_num st i ep)

/-- One outer-loop iteration: failed fetches and empty episode lists are
skipped (`continue`). -/
def processSeason (svc : TMDBServiceModel) (st : BuildState) (season_num : Nat) :
    BuildState :=
  match svc.get_tv_season season_num with
  | none => st
  | some eps => if eps.isEmpty then st else addEpisodesFrom season_num 0 eps st

/-- `build_episode_mapping` from `tmdb_mapping.py`. -/
def build_episode_mapping (tmdb_id : Nat) (svc : TMDBServiceModel) :
    Option TMDBMapping :=
  match svc.get_tv_details with
  | none => none
  | some tv_info =>
    let count := tv_info.seasons_count.getD 0
    let st := (List.range' 1 count).foldl (processSeason svc) ⟨0, [], []⟩
    some
      { tmdb_id := tmdb_id,
        title := pyStrOr tv_info.title_zh
          (pyStrOr tv_info.title ("TMDB:" ++ toString tmdb_id)),
        media_type := "tv",
        by_cumulative := st.by_cumulative,
        by_season_episode := st.by_season_episode,
        total_seasons := count,
        total_episodes := st.cumulative }

/-- Strict lexicographic order on `(season, episode_in_season)` keys. -/
def keyLt (a b : Nat × Nat) : Prop :=
  a.1 < b.1 ∨ (a.1 = b.1 ∧ a.2 < b.2)

/-- Loop invariant: the cumulative keys are exactly `1..cumulative` in order,
all season keys are below the bound, and every row of `by_cumulative` is
found unchanged in `by_season_episode` under its own season key. -/
def BuildInv (st : BuildState) (bound : Nat × Nat) : Prop :=
  st.by_cumulative.map Prod.fst = List.range' 1 st.cumulative ∧
  (∀ q ∈ st.by_season_episode, keyLt q.1 bound) ∧
  (∀ p ∈ st.by_cumulative,
    dictLookup st.by_season_episode (p.2.season, p.2.episode_in_season) =
      some p.2)

theorem dictLookup_append {α β : Type} [DecidableEq α]
    (l : List (α × β)) (k : α) (v : β) (k' : α) :
    dictLookup (l ++ [(k, v)]) k' = if k' = k then some v else dictLookup l k' := by
  unfold dictLookup
  rw [List.reverse_append]
  simp only [List.reverse_cons, List.reverse_nil, List.nil_append,
    List.singleton_append]
  by_cases h : k' = k
  · subst h
    simp [List.find?]
  · have hb : (decide (k = k')) = false :=
      decide_eq_false (fun hh => h hh.symm)
    simp [List.find?, hb, h]

theorem dictLookup_mem {α β : Type} [DecidableEq α] {l : List (α × β)}
    {k : α} {v : β} (h : dictLookup l k = some v) : (k, v) ∈ l := by
  unfold dictLookup at h
  cases hf : l.reverse.find? (fun p => decide (p.1 = k)) with
  | none => rw [hf] at h; simp at h
  | some p =>
    rw [hf] at h
    simp only [Option.map_some'] at h
    have hp := List.find?_some hf
    have hmem := List.mem_of_find?_eq_some hf
    rw [List.mem_reverse] at hmem
    obtain ⟨p1, p2⟩ := p
    simp only [decide_eq_true_eq] at hp
    simp only [Option.some.injEq] at h
    rw [← hp, ← h]
    exact hmem

theorem mem_fst_dictLookup {α β : Type} [DecidableEq α] {l : List (α × β)}
    {k : α} (h : k ∈ l.map Prod.fst) : ∃ v, dictLookup l k = some v := by
  unfold dictLookup
  have hsome : (l.reverse.find? (fun p => decide (p.1 = k))).isSome := by
    rw [List.find?_isSome]
    obtain ⟨p, hp, hfst⟩ := List.mem_map.mp h
    exact ⟨p, by rwa [List.mem_reverse], by simp [hfst]⟩
  cases hf : l.reverse.find? (fun p => decide (p.1 = k)) with
  | none => rw [hf] at hsome; simp at hsome
  | some p => exact ⟨p.2, rfl⟩

theorem keyLt_ne {a b : Nat × Nat} (h : keyLt a b) : a ≠ b := by
  intro he
  subst he
  rcases h with h | ⟨-, h⟩ <;> omega

theorem addEpisode_inv (s : Nat) (st : BuildState) (i : Nat) (ep : SeasonEpisode)
    (h : BuildInv st (s, i + 1)) :
    BuildInv (addEpisode s st i ep) (s, i + 2) := by
  obtain ⟨h1, h2, h3⟩ := h
  refine ⟨?_, ?_, ?_⟩
  · simp only [addEpisode, List.map_append, List.map_cons, List.map_nil, h1]
    rw [List.range'_1_concat]
    simp [Nat.add_comm]
  · intro q hq
    simp only [addEpisode, List.mem_append, List.mem_singleton] at hq
    rcases hq with hq | hq
    · rcases h2 q hq with hlt | ⟨heq, hlt⟩
      · exact Or.inl hlt
      · exact Or.inr ⟨heq, by omega⟩
    · rw [hq]
      exact Or.inr ⟨rfl, Nat.lt_succ_self (i + 1)⟩
  · intro p hp
    simp only [addEpisode, List.mem_append, List.mem_singleton] at hp
    simp only [addEpisode]
    rcases hp with hp | hp
    · have hold := h3 p hp
      have hkmem : ((p.2.season, p.2.episode_in_season), p.2) ∈
          st.by_season_episode := dictLookup_mem hold
      have hne : (p.2.season, p.2.episode_in_season) ≠ (s, i + 1) :=
        keyLt_ne (h2 _ hkmem)
      rw [dictLookup_append, if_neg hne]
      exact hold
    · subst hp
      rw [dictLookup_append]
      simp

theorem addEpisodesFrom_inv (s : Nat) (eps : List SeasonEpisode) :
    ∀ (i : Nat) (st : BuildState), BuildInv st (s, i + 1) →
      BuildInv (addEpisodesFrom s i eps st) (s, i + eps.length + 1) := by
  induction eps with
  | nil =>
    intro i st h
    simpa [addEpisodesFrom] using h
  | cons ep rest ih =>
    intro i st h
    have h2 := addEpisode_inv s st i ep h
    have h3 := ih (i + 1) _ h2
    simp only [addEpisodesFrom, List.length_cons]
    rw [show i + (rest.length + 1) + 1 = (i + 1) + rest.length + 1 from by omega]
    exact h3

theorem BuildInv_mono (st : BuildState) (b1 b2 : Nat × Nat) (h : BuildInv st b1)
    (hb : ∀ a, keyLt a b1 → keyLt a b2) : BuildInv st b2 :=
  ⟨h.1, fun q hq => hb q.1 (h.2.1 q hq), h.2.2⟩

theorem keyLt_next {s k : Nat} {a : Nat × Nat} (h : keyLt a (s, k)) :
    keyLt a (s + 1, 1) := by
  rcases h with h | ⟨h, -⟩
  · exact Or.inl (by omega)
  · exact Or.inl (by omega)

theorem processSeason_inv (svc : TMDBServiceModel) (st : BuildState) (s : Nat)
    (h : BuildInv st (s, 1)) : BuildInv (processSeason svc st s) (s + 1, 1) := by
  unfold processSeason
  split
  · exact BuildInv_mono st _ _ h (fun a => keyLt_next)
  · split
    · exact BuildInv_mono st _ _ h (fun a => keyLt_next)
    · exact BuildInv_mono _ _ _ (addEpisodesFrom_inv s _ 0 st h)
        (fun a => keyLt_next)

theorem processSeasons_inv (svc : TMDBServiceModel) :
    ∀ (n start : Nat) (st : BuildState), BuildInv st (start, 1) →
      BuildInv ((List.range' start n).foldl (processSeason svc) st)
        (start + n, 1) := by
  intro n
  induction n with
  | zero =>
    intro start st h
    simpa using h
  | succ n ih =>
    intro start st h
    rw [List.range'_succ]
    simp only [List.foldl_cons]
    have h1 := processSeason_inv svc st start h
    have h2 := ih (start + 1) _ h1
    rw [show start + (n + 1) = start + 1 + n from by omega]
    exact h2

/-- C1: for every mapping the resolver builds — whatever seasons fail to
fetch or come back empty — the cumulative keys are exactly `1..total_episodes`
with no gaps, every stored row is found unchanged under its
`(season, episode_in_season)` key, and resolving any cumulative number in
range then re-resolving by season key returns the same row. -/
theorem build_episode_mapping_invariants (tmdb_id : Nat)
    (svc : TMDBServiceModel) (m : TMDBMapping)
    (hm : build_episode_mapping tmdb_id svc = some m) :
    m.by_cumulative.map Prod.fst = List.range' 1 m.total_episodes ∧
    (∀ p ∈ m.by_cumulative,
      dictLookup m.by_season_episode (p.2.season, p.2.episode_in_season) =
        some p.2) ∧
    (∀ c, 1 ≤ c → c ≤ m.total_episodes →
      ∃ e, dictLookup m.by_cumulative c = some e ∧
        dictLookup m.by_season_episode (e.season, e.episode_in_season) =
          some e) := by
  unfold build_episode_mapping at hm
  cases hd : svc.get_tv_details with
  | none => rw [hd] at hm; simp at hm
  | some tv =>
    rw [hd] at hm
    simp only [Option.some.injEq] at hm
    have hInv0 : BuildInv ⟨0, [], []⟩ (1, 1) := by
      refine ⟨rfl, ?_, ?_⟩ <;> intro q hq <;> simp at hq
    have hInv := processSeasons_inv svc (tv.seasons_count.getD 0) 1 _ hInv0
    obtain ⟨h1, h2, h3⟩ := hInv
    have hcum : m.by_cumulative =
        ((List.range' 1 (tv.seasons_count.getD 0)).foldl (processSeason svc)
          ⟨0, [], []⟩).by_cumulative := by rw [← hm]
    have hse : m.by_season_episode =
        ((List.range' 1 (tv.seasons_count.getD 0)).foldl (processSeason svc)
          ⟨0, [], []⟩).by_season_episode := by rw [← hm]
    have htot : m.total_episodes =
        ((List.range' 1 (tv.seasons_count.getD 0)).foldl (processSeason svc)
          ⟨0, [], []⟩).cumulative := by rw [← hm]
    refine ⟨?_, ?_, ?_⟩
    · rw [hcum, htot]
      exact h1
    · intro p hp
      rw [hse]
      exact h3 p (hcum ▸ hp)
    · intro c hc1 hc2
      rw [hcum, hse]
      rw [htot] at hc2
      have hcmem : c ∈ ((List.range' 1 (tv.seasons_count.getD 0)).foldl
          (processSeason svc) ⟨0, [], []⟩).by_cumulative.map Prod.fst := by
        rw [h1, List.mem_range']
        exact ⟨c - 1, by omega, by omega⟩
      obtain ⟨e, he⟩ := mem_fst_dictLookup hcmem
      exact ⟨e, he, h3 _ (dictLookup_mem he)⟩

/-- Witness for C1: season 1 has one episode (with its TMDB number absent,
defaulting to 1), season 2 fails to fetch. -/
theorem build_episode_mapping_invariants_witness :
    dictLookup
        (⟨42, "T", "tv", [(1, ⟨1, 1, 1, 1⟩)], [((1, 1), ⟨1, 1, 1, 1⟩)], 2, 1⟩ :
          TMDBMapping).by_cumulative 1 = some ⟨1, 1, 1, 1⟩ ∧
    dictLookup
        (⟨42, "T", "tv", [(1, ⟨1, 1, 1, 1⟩)], [((1, 1), ⟨1, 1, 1, 1⟩)], 2, 1⟩ :
          TMDBMapping).by_season_episode (1, 1) = some ⟨1, 1, 1, 1⟩ := by
  have h := build_episode_mapping_invariants 42
      ⟨some ⟨some "T", none, some 2⟩,
        fun n => if n = 1 then some [⟨none⟩] else none⟩
      ⟨42, "T", "tv", [(1, ⟨1, 1, 1, 1⟩)], [((1, 1), ⟨1, 1, 1, 1⟩)], 2, 1⟩
      (by rfl)
  obtain ⟨e, he1, he2⟩ := h.2.2 1 (by decide) (by decide)
  have heq : e = ⟨1, 1, 1, 1⟩ := by
    have h3 : some e = some (⟨1, 1, 1, 1⟩ : EpisodeInfo) := by
      rw [← he1]; rfl
    exact (Option.some.inj h3)
  rw [heq] at he1 he2
  exact ⟨he1, he2⟩

/-! ## `backend/services/alist_service.py`

`LRUCache` keeps its `OrderedDict` as a list in recency order (front =
oldest).  Timestamps are naturals.  The HTTP layer is an oracle: for the
`list_directory` retry loop a function of the attempt index, for the single
mutation calls a function of the request.  Observable effects (requests,
sleeps, logins) are collected in traces. -/

/-- The payload of a directory listing (file names suffice here). -/
abbrev DirListing := List String

/-- `LRUCache` state. -/
structure LRUCacheState where
  max_size : Nat
  ttl : Nat
  entries : List (String × DirListing × Nat)
deriving DecidableEq

/-- `LRUCache.get`: miss on absence, delete on expiry, move to the recent end
on a hit. -/
def cacheGet (c : LRUCacheState) (key : String) (now : Nat) :
    Option DirListing × LRUCacheState :=
  match c.entries.find? (fun e => decide (e.1 = key)) with
  | none => (none, c)
  | some e =>
    if now - e.2.2 > c.ttl then
      (none, { c with entries := c.entries.filter (fun x => !decide (x.1 = key)) })
    else
      (some e.2.1,
        { c with entries :=
            c.entries.filter (fun x => !decide (x.1 = key)) ++ [(key, e.2.1, e.2.2)] })

/-- `LRUCache.set`: delete an existing binding, evict from the old end while
full, then append. -/
def cacheSet (c : LRUCacheState) (key : String) (v : DirListing) (now : Nat) :
    LRUCacheState :=
  let e1 := c.entries.filter (fun x => !decide (x.1 = key))
  let e2 := e1.drop (e1.length + 1 - c.max_size)
  { c with entries := e2 ++ [(key, v, now)] }

/-- `LRUCache.invalidate`. -/
def cacheInvalidate (c : LRUCacheState) (key : String) : LRUCacheState :=
  { c with entries := c.entries.filter (fun x => !decide (x.1 = key)) }

/-- `str.replace('//', '/')`: scan left to right, continue after each
replacement. -/
def replaceDoubleSlash : List Char → List Char
  | [] => []
  | [c] => [c]
  | c :: d :: rest =>
    if c = '/' ∧ d = '/' then '/' :: replaceDoubleSlash rest
    else c :: replaceDoubleSlash (d :: rest)

/-- `AlistService._full_path`. -/
def full_path (base_path path : String) : String :=
  if path = "" || path = "/" then base_path
  else if strStartsWith path "/" then path
  else String.mk (replaceDoubleSlash (base_path ++ "/" ++ path).data)

/-- `os.path.dirname` (POSIX). -/
def dirname (p : String) : String :=
  let l := p.data
  match l.reverse.findIdx? (fun c => c = '/') with
  | none => ""
  | some j =>
    let head := l.take (l.length - j)
    if head.all (fun c => c = '/') then String.mk head
    else String.mk (head.reverse.dropWhile (fun c => c = '/')).reverse

/-- `os.path.basename` (POSIX). -/
def basename (p : String) : String :=
  match p.data.reverse.findIdx? (fun c => c = '/') with
  | none => p
  | some j => String.mk (p.data.drop (p.data.length - j))

example : dirname "/a/b.mkv" = "/a" := by decide
example : basename "/a/b.mkv" = "b.mkv" := by decide
example : dirname "/a" = "/" := by decide
example : dirname "a" = "" := by decide
example : full_path "/base" "x/y" = "/base/x/y" := by decide
example : full_path "/base" "/abs" = "/abs" := by decide

/-- One Alist API request, as issued by the mutation and refresh methods. -/
inductive AlistRequest
  | rename (path name : String)
  | move (src_dir dst_dir : String) (names : List String)
  | copy (src_dir dst_dir : String) (names : List String)
  | remove (dir : String) (names : List String)
  | mkdir (path : String)
  | put (path content : String)
  | get (path : String)
  | list (path : String) (refresh : Bool)
deriving DecidableEq

/-- An Alist HTTP response: status, body code/message, and the listing
payload for list requests. -/
structure ApiResponse where
  status : Nat
  code : Nat
  message : String
  listing : DirListing
deriving DecidableEq

/-- Client state relevant to caching: base path, login token presence, and
the directory cache. -/
structure AlistClientState where
  base_path : String
  token : Bool
  cache : LRUCacheState
deriving DecidableEq

/-- `AlistService.move_file`: same-directory moves are a rename, cross
directory moves are a move plus, for a changed name, a rename.  The method
performs no cache operation. -/
def move_file (st : AlistClientState) (O : AlistRequest → ApiResponse)
    (loginOk : Bool) (source destination : String) :
    Except String Bool × AlistClientState :=
  if ¬ st.token ∧ ¬ loginOk then (.error "登录失败", st)
  else
    let st := { st with token := true }
    let src_full := full_path st.base_path source
    let dst_full := full_path st.base_path destination
    let src_dir := dirname src_full
    let src_name := basename src_full
    let dst_dir := dirname dst_full
    let dst_name := basename dst_full
    let resp :=
      if src_dir = dst_dir then O (.rename src_full dst_name)
      else
        let r1 := O (.move src_dir dst_dir [src_name])
        if src_name ≠ dst_name then O (.rename (dst_dir ++ "/" ++ src_name) dst_name)
        else r1
    (.ok (resp.status = 200 && resp.code = 200), st)

/-- `AlistService.copy_file` (the visibility-polling loop between the copy
and the optional rename only issues `get` requests and touches no state). -/
def copy_file (st : AlistClientState) (O : AlistRequest → ApiResponse)
    (loginOk : Bool) (source destination : String) :
    Except String Bool × AlistClientState :=
  if ¬ st.token ∧ ¬ loginOk then (.error "登录失败", st)
  else
    let st := { st with token := true }
    let src_full := full_path st.base_path source
    let dst_full := full_path st.base_path destination
    let src_dir := dirname src_full
    let src_name := basename src_full
    let dst_dir := dirname dst_full
    let dst_name := basename dst_full
    let r1 := O (.copy src_dir dst_dir [src_name])
    if r1.status = 200 then
      if r1.code ≠ 200 then (.ok false, st)
      else if src_name ≠ dst_name then
        let r2 := O (.rename (dst_dir ++ "/" ++ src_name) dst_name)
        (.ok (r2.status = 200 && r2.code = 200), st)
      else (.ok true, st)
    else (.ok false, st)

/-- `AlistService.delete_file`. -/
def delete_file (st : AlistClientState) (O : AlistRequest → ApiResponse)
    (loginOk : Bool) (path : String) : Except String Bool × AlistClientState :=
  if ¬ st.token ∧ ¬ loginOk then (.error "登录失败", st)
  else
    let st := { st with token := true }
    let fp := full_path st.base_path path
    let resp := O (.remove (dirname fp) [basename fp])
    (.ok (resp.status = 200 && resp.code = 200), st)

/-- `AlistService.create_directory_async` (code 500 counts as success:
the directory may already exist). -/
def create_directory (st : AlistClientState) (O : AlistRequest → ApiResponse)
    (loginOk : Bool) (path : String) : Except String Bool × AlistClientState :=
  if ¬ st.token ∧ ¬ loginOk then (.error "登录失败", st)
  else
    let st := { st with token := true }
    let resp := O (.mkdir (full_path st.base_path path))
    (.ok (resp.status = 200 && (resp.code = 200 || resp.code = 500)), st)

/-- `AlistService.put_file_content`. -/
def put_file_content (st : AlistClientState) (O : AlistRequest → ApiResponse)
    (loginOk : Bool) (path content : String) :
    Except String Bool × AlistClientState :=
  if ¬ st.token ∧ ¬ loginOk then (.error "登录失败", st)
  else
    let st := { st with token := true }
    let resp := O (.put (full_path st.base_path path) content)
    (.ok (resp.status = 200 && resp.code = 200), st)

/-- `AlistService.refresh_directory_async`: a `list` request with
`refresh=true`; on success the local cache entry is evicted. -/
def refresh_directory (st : AlistClientState) (O : AlistRequest → ApiResponse)
    (loginOk : Bool) (path : String) : Bool × AlistClientState :=
  if ¬ st.token ∧ ¬ loginOk then (false, st)
  else
    let st := { st with token := true }
    let fp := full_path st.base_path path
    let resp := O (.list fp true)
    if resp.status = 200 ∧ resp.code = 200 then
      (true, { st with cache := cacheInvalidate st.cache ("list:" ++ fp) })
    else (false, st)

/-- Outcome of the `attempt`-th `POST /api/fs/list` of one `list_directory`
call: a response or a raised transport exception. -/
inductive AttemptOutcome
  | response (status code : Nat) (message : String) (listing : DirListing)
  | exn (msg : String)
deriving DecidableEq

/-- Observable actions of `list_directory`. -/
inductive ClientAction
  | rateWait
  | request
  | sleepRateLimit
  | sleepRetry (seconds : Nat)
  | login
deriving DecidableEq

/-- Substring test (Python `in`). -/
def containsSub (needle : List Char) : List Char → Bool
  | [] => needle.isEmpty
  | c :: rest => needle.isPrefixOf (c :: rest) || containsSub needle rest

/-- `"too many" in message.lower()`. -/
def containsTooMany (msg : String) : Bool :=
  containsSub "too many".data (lowerString msg).data

def MAX_RETRIES : Nat := 3

/-- The bottom-of-loop linear back-off: `time.sleep(RETRY_DELAY * (attempt+1))`
for every attempt but the last. -/
def retrySleep (attempt : Nat) : List ClientAction :=
  if attempt < MAX_RETRIES - 1 then [ClientAction.sleepRetry (attempt + 1)] else []

/-- The `for attempt in range(MAX_RETRIES)` loop of
`AlistService.list_directory`.  `fuel` is the number of remaining iterations
(`MAX_RETRIES - attempt`), `lc` counts `_login_sync` calls, and the last
argument is `last_error`.  On a 200/200 response the loop returns the
listing; `continue` branches (body 429 / "too many", HTTP 429, 401 with a
successful re-login) skip the bottom sleep; exhausting the loop raises with
`last_error`. -/
def listLoop (O : Nat → AttemptOutcome) (logins : Nat → Bool) :
    Nat → Nat → Nat → Option String →
    List ClientAction × Except (Option String) DirListing
  | 0, _, _, le => ([], .error le)
  | fuel + 1, attempt, lc, le =>
    match O attempt with
    | .exn m =>
      let tail := listLoop O logins fuel (attempt + 1) lc (some m)
      (ClientAction.rateWait :: ClientAction.request ::
        (retrySleep attempt ++ tail.1), tail.2)
    | .response status code msg listing =>
      if status = 200 then
        if code = 200 then
          ([ClientAction.rateWait, ClientAction.request], .ok listing)
        else if code = 401 then
          if logins lc then
            let tail := listLoop O logins fuel (attempt + 1) (lc + 1) le
            (ClientAction.rateWait :: ClientAction.request ::
              ClientAction.login :: tail.1, tail.2)
          else
            let tail := listLoop O logins fuel (attempt + 1) (lc + 1) le
            (ClientAction.rateWait :: ClientAction.request ::
              ClientAction.login :: (retrySleep attempt ++ tail.1), tail.2)
        else if code = 429 || containsTooMany msg then
          let tail := listLoop O logins fuel (attempt + 1) lc le
          (ClientAction.rateWait :: ClientAction.request ::
            ClientAction.sleepRateLimit :: tail.1, tail.2)
        else
          let tail := listLoop O logins fuel (attempt + 1) lc (some msg)
          (ClientAction.rateWait :: ClientAction.request ::
            (retrySleep attempt ++ tail.1), tail.2)
      else if status = 429 then
        let tail := listLoop O logins fuel (attempt + 1) lc le
        (ClientAction.rateWait :: ClientAction.request ::
          ClientAction.sleepRateLimit :: tail.1, tail.2)
      else
        let tail := listLoop O logins fuel (attempt + 1) lc
          (some ("HTTP " ++ toString status))
        (ClientAction.rateWait :: ClientAction.request ::
          (retrySleep attempt ++ tail.1), tail.2)

/-- The retry part of one `list_directory` call (cache miss path). -/
def list_directory_attempts (O : Nat → AttemptOutcome) (logins : Nat → Bool) :
    List ClientAction × Except (Option String) DirListing :=
  listLoop O logins MAX_RETRIES 0 0 none

/-- `AlistService.list_directory`: log in when the token is absent, consult
the cache under `list:<full_path>`, and only on a miss run the retry loop,
caching a successful result. -/
def list_directory (st : AlistClientState) (O : Nat → AttemptOutcome)
    (logins : Nat → Bool) (initialLoginOk : Bool) (now : Nat) (path : String) :
    Except (Option String) DirListing × AlistClientState × List ClientAction :=
  if ¬ st.token ∧ ¬ initialLoginOk then (.error (some "登录失败"), st, [])
  else
    let st := { st with token := true }
    let key := "list:" ++ full_path st.base_path path
    let got := cacheGet st.cache key now
    match got.1 with
    | some v => (.ok v, { st with cache := got.2 }, [])
    | none =>
      let r := listLoop O logins MAX_RETRIES 0 0 none
      match r.2 with
      | .ok listing =>
        (.ok listing, { st with cache := cacheSet got.2 key listing now }, r.1)
      | .error e => (.error e, { st with cache := got.2 }, r.1)

/-- Number of HTTP requests in a trace. -/
def requestCount (acts : List ClientAction) : Nat :=
  acts.countP (fun a => decide (a = ClientAction.request))

/-- A Boolean view of `Except` success. -/
def exceptIsOk {ε α : Type} : Except ε α → Bool
  | .ok _ => true
  | .error _ => false

/-- The success payload of an `Except`. -/
def exceptToOption {ε α : Type} : Except ε α → Option α
  | .ok a => some a
  | .error _ => none

theorem cacheGet_invalidate (c : LRUCacheState) (key : String) (now : Nat) :
    (cacheGet (cacheInvalidate c key) key now).1 = none := by
  unfold cacheGet cacheInvalidate
  have hf : ((c.entries.filter (fun x => !decide (x.1 = key))).find?
      (fun e => decide (e.1 = key))) = none := by
    rw [List.find?_eq_none]
    intro x hx
    have hm := List.mem_filter.mp hx
    simp only [Bool.not_eq_true', decide_eq_false_iff_not] at hm
    simp [hm.2]
  rw [hf]

/-- C4 (counterexample): a successful `move_file` does not invalidate the
source parent's cache entry, and a `list_directory` of that parent 10 seconds
later — within the 300-second TTL — returns the pre-mutation listing even
though the server now answers differently. -/
theorem move_then_list_returns_stale :
    exceptToOption
      (move_file ⟨"/", true, ⟨100, 300, [("list:/dir", ["old.mkv"], 0)]⟩⟩
        (fun _ => ⟨200, 200, "", []⟩) true "/dir/old.mkv" "/other/old.mkv").1 =
      some true ∧
    exceptToOption
      (list_directory
        (move_file ⟨"/", true, ⟨100, 300, [("list:/dir", ["old.mkv"], 0)]⟩⟩
          (fun _ => ⟨200, 200, "", []⟩) true "/dir/old.mkv" "/other/old.mkv").2
        (fun _ => .response 200 200 "" ["fresh.mkv"]) (fun _ => true) true 10
        "/dir").1 = some ["old.mkv"] := by
  decide

/-- C4 (amended): none of move/copy/delete/mkdir/put touches the directory
cache, so a later list of the parent within the TTL is served from the stale
entry; only `refresh_directory` (on success) forces a server-side
`refresh=true` listing and evicts the local entry. -/
theorem alist_cache_mutation_behavior (st : AlistClientState)
    (O : AlistRequest → ApiResponse) (OL : Nat → AttemptOutcome)
    (logins : Nat → Bool) (ilo loginOk : Bool)
    (src dst path content : String) (now : Nat) :
    (move_file st O loginOk src dst).2.cache = st.cache ∧
    (copy_file st O loginOk src dst).2.cache = st.cache ∧
    (delete_file st O loginOk path).2.cache = st.cache ∧
    (create_directory st O loginOk path).2.cache = st.cache ∧
    (put_file_content st O loginOk path content).2.cache = st.cache ∧
    ((refresh_directory st O loginOk path).1 = true →
      (cacheGet (refresh_directory st O loginOk path).2.cache
        ("list:" ++ full_path st.base_path path) now).1 = none) ∧
    (∀ v c', st.token = true →
      cacheGet st.cache ("list:" ++ full_path st.base_path path) now =
        (some v, c') →
      list_directory st OL logins ilo now path =
        (.ok v, { st with cache := c' }, [])) := by
  refine ⟨?_, ?_, ?_, ?_, ?_, ?_, ?_⟩
  · unfold move_file
    split <;> rfl
  · simp only [copy_file]
    repeat' split
    all_goals rfl
  · unfold delete_file
    split <;> rfl
  · unfold create_directory
    split <;> rfl
  · unfold put_file_content
    split <;> rfl
  · intro h
    simp only [refresh_directory] at h ⊢
    by_cases h1 : ¬ st.token = true ∧ ¬ loginOk = true
    · rw [if_pos h1] at h
      exact absurd h Bool.false_ne_true
    · rw [if_neg h1] at h ⊢
      by_cases h2 :
          (O (AlistRequest.list (full_path st.base_path path) true)).status = 200 ∧
          (O (AlistRequest.list (full_path st.base_path path) true)).code = 200
      · rw [if_pos h2]
        exact cacheGet_invalidate _ _ _
      · rw [if_neg h2] at h
        exact absurd h Bool.false_ne_true
  · intro v c' htok hget
    have hst : { st with token := true } = st := by
      cases st
      simp_all
    simp only [list_directory]
    have hcond : ¬ (¬ st.token = true ∧ ¬ ilo = true) := fun hc => hc.1 htok
    rw [if_neg hcond, hget, htok]

/-- Witness for the amended C4 at a concrete state: a successful refresh
leaves no cache entry for the path, and a cached entry is served on a list
within the TTL. -/
theorem alist_cache_mutation_behavior_witness :
    (cacheGet
      (refresh_directory ⟨"/", true, ⟨100, 300, [("list:/d", ["f"], 0)]⟩⟩
        (fun _ => ⟨200, 200, "", []⟩) true "/d").2.cache
      ("list:" ++ full_path "/" "/d") 5).1 = none ∧
    list_directory ⟨"/", true, ⟨100, 300, [("list:/d", ["f"], 0)]⟩⟩
        (fun _ => .response 200 200 "" ["srv"]) (fun _ => true) true 5 "/d" =
      (.ok ["f"],
        ⟨"/", true, ⟨100, 300, [("list:/d", ["f"], 0)]⟩⟩, []) := by
  have h := alist_cache_mutation_behavior
      ⟨"/", true, ⟨100, 300, [("list:/d", ["f"], 0)]⟩⟩
      (fun _ => ⟨200, 200, "", []⟩) (fun _ => .response 200 200 "" ["srv"])
      (fun _ => true) true true "/s" "/t" "/d" "c" 5
  refine ⟨h.2.2.2.2.2.1 (by decide), ?_⟩
  have h2 := h.2.2.2.2.2.2 ["f"] ⟨100, 300, [("list:/d", ["f"], 0)]⟩
      (by decide) (by decide)
  exact h2

theorem requestCount_retry_tail (attempt : Nat) (acts : List ClientAction) :
    requestCount (ClientAction.rateWait :: ClientAction.request ::
      (retrySleep attempt ++ acts)) = requestCount acts + 1 := by
  unfold retrySleep requestCount
  split <;> simp [List.countP_cons, List.countP_append]

theorem requestCount_rl (acts : List ClientAction) :
    requestCount (ClientAction.rateWait :: ClientAction.request ::
      ClientAction.sleepRateLimit :: acts) = requestCount acts + 1 := by
  simp [requestCount, List.countP_cons]

theorem requestCount_login_cons (acts : List ClientAction) :
    requestCount (ClientAction.rateWait :: ClientAction.request ::
      ClientAction.login :: acts) = requestCount acts + 1 := by
  simp [requestCount, List.countP_cons]

theorem requestCount_login_retry (attempt : Nat) (acts : List ClientAction) :
    requestCount (ClientAction.rateWait :: ClientAction.request ::
      ClientAction.login :: (retrySleep attempt ++ acts)) =
      requestCount acts + 1 := by
  unfold retrySleep requestCount
  split <;> simp [List.countP_cons, List.countP_append]

theorem listLoop_requestCount (O : Nat → AttemptOutcome) (logins : Nat → Bool) :
    ∀ (fuel attempt lc : Nat) (le : Option String),
      requestCount (listLoop O logins fuel attempt lc le).1 ≤ fuel := by
  intro fuel
  induction fuel with
  | zero =>
    intro attempt lc le
    simp [listLoop, requestCount]
  | succ fuel ih =>
    intro attempt lc le
    simp only [listLoop]
    split
    · rw [requestCount_retry_tail]
      exact Nat.succ_le_succ (ih _ _ _)
    · split
      · split
        · simp [requestCount, List.countP_cons]
        · split
          · split
            · rw [requestCount_login_cons]
              exact Nat.succ_le_succ (ih _ _ _)
            · rw [requestCount_login_retry]
              exact Nat.succ_le_succ (ih _ _ _)
          · split
            · rw [requestCount_rl]
              exact Nat.succ_le_succ (ih _ _ _)
            · rw [requestCount_retry_tail]
              exact Nat.succ_le_succ (ih _ _ _)
      · split
        · rw [requestCount_rl]
          exact Nat.succ_le_succ (ih _ _ _)
        · rw [requestCount_retry_tail]
          exact Nat.succ_le_succ (ih _ _ _)

/-- C5 (counterexample): when attempt 0 answers code 401 (re-login succeeds)
and the following two attempts answer HTTP 500, the call makes exactly 3
requests in total and fails — the post-login retry does count against the
3-attempt budget, so the successful response the server would give on a 4th
request is never seen. -/
theorem retry_401_counts_against_budget :
    requestCount (list_directory_attempts
      (fun a => if a = 0 then AttemptOutcome.response 200 401 "" []
        else if a ≤ 2 then AttemptOutcome.response 500 0 "" []
        else AttemptOutcome.response 200 200 "" ["payload"])
      (fun _ => true)).1 = 3 ∧
    exceptIsOk (list_directory_attempts
      (fun a => if a = 0 then AttemptOutcome.response 200 401 "" []
        else if a ≤ 2 then AttemptOutcome.response 500 0 "" []
        else AttemptOutcome.response 200 200 "" ["payload"])
      (fun _ => true)).2 = false ∧
    (fun a => if a = 0 then AttemptOutcome.response 200 401 "" []
        else if a ≤ 2 then AttemptOutcome.response 500 0 "" []
        else AttemptOutcome.response 200 200 "" ["payload"]) 3 =
      AttemptOutcome.response 200 200 "" ["payload"] := by
  refine ⟨by decide, by decide, by decide⟩

/-- C5 (amended): the loop makes at most 3 requests in total; a rate-limited
response (HTTP 429, or body code 429 / a "too many" message) sleeps the fixed
5 seconds and retries; other failures sleep 1s x (attempt+1) before the next
attempt; and a body code 401 triggers a fresh login and an immediate retry
which consumes one of the same 3 attempts. -/
theorem alist_list_retry_behavior (O : Nat → AttemptOutcome)
    (logins : Nat → Bool) (fuel attempt lc : Nat) (le : Option String) :
    requestCount (list_directory_attempts O logins).1 ≤ MAX_RETRIES ∧
    (∀ code msg listing, O attempt = .response 200 code msg listing →
      code ≠ 200 → code ≠ 401 → (code = 429 ∨ containsTooMany msg = true) →
      listLoop O logins (fuel + 1) attempt lc le =
        (ClientAction.rateWait :: ClientAction.request ::
          ClientAction.sleepRateLimit ::
          (listLoop O logins fuel (attempt + 1) lc le).1,
          (listLoop O logins fuel (attempt + 1) lc le).2)) ∧
    (∀ code msg listing, O attempt = .response 429 code msg listing →
      listLoop O logins (fuel + 1) attempt lc le =
        (ClientAction.rateWait :: ClientAction.request ::
          ClientAction.sleepRateLimit ::
          (listLoop O logins fuel (attempt + 1) lc le).1,
          (listLoop O logins fuel (attempt + 1) lc le).2)) ∧
    (∀ status code msg listing, O attempt = .response status code msg listing →
      status ≠ 200 → status ≠ 429 →
      listLoop O logins (fuel + 1) attempt lc le =
        (ClientAction.rateWait :: ClientAction.request ::
          (retrySleep attempt ++ (listLoop O logins fuel (attempt + 1) lc
            (some ("HTTP " ++ toString status))).1),
          (listLoop O logins fuel (attempt + 1) lc
            (some ("HTTP " ++ toString status))).2)) ∧
    (∀ msg listing, O attempt = .response 200 401 msg listing →
      logins lc = true →
      listLoop O logins (fuel + 1) attempt lc le =
        (ClientAction.rateWait :: ClientAction.request :: ClientAction.login ::
          (listLoop O logins fuel (attempt + 1) (lc + 1) le).1,
          (listLoop O logins fuel (attempt + 1) (lc + 1) le).2)) := by
  refine ⟨listLoop_requestCount O logins MAX_RETRIES 0 0 none, ?_, ?_, ?_, ?_⟩
  · intro code msg listing hO hc200 hc401 hrl
    have hb : (decide (code = 429) || containsTooMany msg) = true := by
      rcases hrl with h | h
      · simp [h]
      · simp [h]
    simp [listLoop, hO, hc200, hc401, hb]
  · intro code msg listing hO
    simp [listLoop, hO]
  · intro status code msg listing hO hs200 hs429
    simp [listLoop, hO, hs200, hs429]
  · intro msg listing hO hlogin
    simp [listLoop, hO, hlogin]

/-- Witness for the amended C5: a single rate-limited response at attempt 0
produces the fixed 5-second sleep and a retry. -/
theorem alist_list_retry_behavior_witness :
    listLoop (fun _ => AttemptOutcome.response 429 0 "" []) (fun _ => true)
        3 0 0 none =
      (ClientAction.rateWait :: ClientAction.request ::
        ClientAction.sleepRateLimit ::
        (listLoop (fun _ => AttemptOutcome.response 429 0 "" []) (fun _ => true)
          2 1 0 none).1,
        (listLoop (fun _ => AttemptOutcome.response 429 0 "" []) (fun _ => true)
          2 1 0 none).2) ∧
    requestCount (list_directory_attempts
      (fun _ => AttemptOutcome.response 429 0 "" []) (fun _ => true)).1 ≤ 3 := by
  have h := alist_list_retry_behavior (fun _ => AttemptOutcome.response 429 0 "" [])
      (fun _ => true) 2 0 0 none
  exact ⟨h.2.2.1 0 "" [] rfl, h.1⟩

end MediaAgent
